import Mathlib

/-!
# Verification of the `canvas` server supervisor (`cmd/server/main.go`)

This file gives a shallow embedding of the lifecycle supervisor in
`cmd/server/main.go` of the `canvas` repository and proves properties of it.

The Go program's `start` function:

* creates a logger (`createLogger("development")`), returning `1` on failure;
* loads AWS configuration (`config.LoadDefaultConfig`), returning `1` on failure;
* constructs the server component (`server.New`);
* installs a signal context (`signal.NotifyContext(..., SIGTERM, SIGINT)`);
* builds an errgroup with `errgroup.WithContext(ctx)`;
* launches `s.Start()` in the group, blocks on `<-ctx.Done()`, then launches
  `s.Stop()` in the group, finally `eg.Wait()` and returns `1` on a non-nil
  error, else `0`.

The concurrency is embedded as a trace semantics: an execution of the
supervisor loop is a list of events (an OS termination signal arriving, the
start task returning, the stop task returning), processed by a step function
that mirrors the code together with the documented semantics of the
`golang.org/x/sync/errgroup` package:

* `errgroup.WithContext`: the derived context is canceled the first time a
  function passed to `Go` returns a non-nil error (or when `Wait` first
  returns, which here happens only after the context is already done);
* `errgroup.Wait`: blocks until all functions launched with `Go` have
  returned, then returns the first non-nil error among them (later errors
  are not returned).

`signal.NotifyContext` makes the context done when the first SIGTERM/SIGINT
arrives; further signals are no-ops for the already-done context.
-/

namespace Canvas

/-- A Go `error` value (non-nil errors only); `Option GoErr` models a Go
`error` result where `none` is `nil`. -/
structure GoErr where
  msg : String
deriving DecidableEq, Repr

/-- An observable event of the supervisor loop: an OS termination signal is
delivered, the `s.Start()` task returns (with `none` for a nil error), or the
`s.Stop()` task returns. -/
inductive Event where
  | signal : Event
  | startRet : Option GoErr → Event
  | stopRet : Option GoErr → Event
deriving DecidableEq, Repr

/-- State of the supervisor loop.  `signalFired` records that a SIGTERM/SIGINT
was delivered; `draining` records that the main goroutine has passed
`<-ctx.Done()` and launched the `s.Stop()` task; `startRetd`/`stopRetd` hold
the result of the start/stop task once it has returned; `errs` collects, in
chronological order of task return, the non-nil errors returned by tasks of
the errgroup (its head is what `eg.Wait()` returns). -/
structure SupState where
  signalFired : Bool
  draining : Bool
  startRetd : Option (Option GoErr)
  stopRetd : Option (Option GoErr)
  errs : List GoErr
deriving DecidableEq, Repr

/-- The state right after `eg.Go(start task)`: the start task is launched, no
signal yet, stop not launched. -/
def initState : SupState :=
  { signalFired := false, draining := false, startRetd := none,
    stopRetd := none, errs := [] }

/-- Whether the context from `signal.NotifyContext` + `errgroup.WithContext`
is done: a signal arrived, or some task passed to `Go` returned a non-nil
error.  A task returning a nil error does not cancel the errgroup context. -/
def ctxDone (s : SupState) : Bool :=
  s.signalFired || !s.errs.isEmpty

/-- The main goroutine is blocked at `<-ctx.Done()`; as soon as the context is
done it proceeds and launches the `s.Stop()` task (entering draining). -/
def launchStopIfDone (s : SupState) : SupState :=
  { s with draining := s.draining || ctxDone s }

/-- A task of the errgroup returning result `r` appends its error, if non-nil,
to the chronological error list. -/
def recordErr (errs : List GoErr) : Option GoErr → List GoErr
  | none => errs
  | some e => errs ++ [e]

/-- One event of the supervisor loop.  `none` marks an impossible event: the
start task returns at most once, and the stop task can only return after it
has been launched, which the code does only after `<-ctx.Done()`. -/
def step (s : SupState) : Event → Option SupState
  | Event.signal =>
      some (launchStopIfDone { s with signalFired := true })
  | Event.startRet r =>
      if s.startRetd.isSome then none
      else some (launchStopIfDone
        { s with startRetd := some r, errs := recordErr s.errs r })
  | Event.stopRet r =>
      if s.draining && s.stopRetd.isNone then
        some { s with stopRetd := some r, errs := recordErr s.errs r }
      else none

/-- Process a whole trace of events from a state. -/
def procTrace (s : SupState) : List Event → Option SupState
  | [] => some s
  | e :: rest =>
      match step s e with
      | none => none
      | some s' => procTrace s' rest

/-- `eg.Wait()` returns once every launched task has returned; here both the
start task and the (launched) stop task have returned. -/
def completed (s : SupState) : Bool :=
  s.draining && s.startRetd.isSome && s.stopRetd.isSome

/-- The final state of a run of the supervisor loop on a trace, provided the
trace is feasible and the run completes (reaches the return after
`eg.Wait()`). -/
def runFinal (tr : List Event) : Option SupState :=
  match procTrace initState tr with
  | none => none
  | some s => if completed s then some s else none

/-- What `eg.Wait()` returns: the first non-nil error among the tasks, or
`none` when every task returned nil. -/
def waitErrOf (s : SupState) : Option GoErr := s.errs.head?

/-- The set of errors present in the value returned by `eg.Wait()` (at most
one: `Wait` returns a single error). -/
def waitErrSet (s : SupState) : List GoErr := (waitErrOf s).toList

/-- The exit status computed after `eg.Wait()`: `1` if `Wait` returned a
non-nil error, else `0`. -/
def exitCodeOf (s : SupState) : Nat :=
  if (waitErrOf s).isSome then 1 else 0

/-- The error produced by the start phase, if the start task has returned with
a non-nil error. -/
def startErrOf (s : SupState) : Option GoErr := s.startRetd.bind id

/-- The error produced by the stop phase, if the stop task has returned with a
non-nil error. -/
def stopErrOf (s : SupState) : Option GoErr := s.stopRetd.bind id

/-- Number of `stopRet` events in a trace (returns of the stop task). -/
def countStop : List Event → Nat
  | [] => 0
  | Event.stopRet _ :: rest => countStop rest + 1
  | _ :: rest => countStop rest

/-- Number of `startRet` events in a trace (returns of the start task). -/
def countStart : List Event → Nat
  | [] => 0
  | Event.startRet _ :: rest => countStart rest + 1
  | _ :: rest => countStart rest

/-- Checks, replaying the trace, that every return of the stop task happens in
a state where draining has already been entered. -/
def stopsAfterDraining (s : SupState) : List Event → Bool
  | [] => true
  | e :: rest =>
      match step s e with
      | none => false
      | some s' =>
          (match e with
           | Event.stopRet _ => s.draining
           | _ => true) && stopsAfterDraining s' rest

/-- Result of one whole run of `start()`: the exit status, whether the server
component was constructed (`server.New` reached), and how many times the start
and stop tasks were launched. -/
structure StartOutcome where
  exit : Nat
  componentConstructed : Bool
  startCalls : Nat
  stopCalls : Nat
deriving DecidableEq, Repr

/-- The whole `start()` function of `cmd/server/main.go`.  `loggerOk` is
whether `createLogger` succeeded, `awsOk` whether `config.LoadDefaultConfig`
succeeded; on either failure the function returns `1` before `server.New` is
called.  Otherwise the supervisor loop runs on the trace `tr`; `none` means
the run does not terminate on this trace. -/
def startProg (loggerOk awsOk : Bool) (tr : List Event) : Option StartOutcome :=
  if !loggerOk then
    some { exit := 1, componentConstructed := false, startCalls := 0, stopCalls := 0 }
  else if !awsOk then
    some { exit := 1, componentConstructed := false, startCalls := 0, stopCalls := 0 }
  else
    match runFinal tr with
    | none => none
    | some s =>
        some { exit := exitCodeOf s, componentConstructed := true,
               startCalls := 1, stopCalls := 1 }

/-! ## Configuration helpers (`getStringOrDefault`, `getIntOrDefault`) -/

/-- The process environment, as seen through `os.LookupEnv`: `none` when the
variable is absent. -/
def Env : Type := String → Option String

/-- `strconv.Atoi`: an optional `+`/`-` sign followed by at least one decimal
digit; the result must fit a 64-bit signed integer, else it is a range error.
`none` models a non-nil parse error. -/
def digitVal (c : Char) : Option Nat :=
  if '0' ≤ c ∧ c ≤ '9' then some (c.toNat - '0'.toNat) else none

/-- Accumulate decimal digits; fails on any non-digit character. -/
def parseDigitsAux : List Char → Nat → Option Nat
  | [], acc => some acc
  | c :: cs, acc =>
      match digitVal c with
      | none => none
      | some d => parseDigitsAux cs (acc * 10 + d)

/-- Parse a non-empty string of decimal digits. -/
def parseDigits (cs : List Char) : Option Nat :=
  if cs.isEmpty then none else parseDigitsAux cs 0

/-- 64-bit signed range check of `strconv.Atoi`/`ParseInt`. -/
def inInt64Range (n : Int) : Option Int :=
  if -(2 ^ 63) ≤ n ∧ n ≤ 2 ^ 63 - 1 then some n else none

/-- `strconv.Atoi`. -/
def atoi (v : String) : Option Int :=
  match v.data with
  | '+' :: rest => (parseDigits rest).bind fun n => inInt64Range (Int.ofNat n)
  | '-' :: rest => (parseDigits rest).bind fun n => inInt64Range (-(Int.ofNat n))
  | cs => (parseDigits cs).bind fun n => inInt64Range (Int.ofNat n)

/-- `getStringOrDefault` from `cmd/server/main.go`: look the name up in the
environment, returning the default when it is unset. -/
def getStringOrDefault (env : Env) (name defaultV : String) : String :=
  match env name with
  | none => defaultV
  | some v => v

/-- `getIntOrDefault` from `cmd/server/main.go`: look the name up in the
environment; return the default when it is unset or when `strconv.Atoi`
fails on its value. -/
def getIntOrDefault (env : Env) (name : String) (defaultV : Int) : Int :=
  match env name with
  | none => defaultV
  | some v =>
      match atoi v with
      | none => defaultV
      | some vAsInt => vAsInt

/-! ## AWS endpoint resolver (`createAWSEndpointResolver`) -/

/-- `sqs.ServiceID` from the AWS SDK. -/
def sqsServiceID : String := "SQS"

/-- Result of the endpoint resolver: a custom endpoint with a URL, or an
`aws.EndpointNotFoundError` (which makes the SDK fall back to the default
endpoint). -/
inductive ResolveResult where
  | endpoint (url : String) : ResolveResult
  | endpointNotFoundError : ResolveResult
deriving DecidableEq, Repr

/-- `createAWSEndpointResolver` from `cmd/server/main.go`: reads
`SQS_ENDPOINT_URL` (default empty) and returns a resolver that yields the
custom endpoint for SQS when the URL is non-empty, and
`EndpointNotFoundError` otherwise. -/
def createAWSEndpointResolver (env : Env) : String → String → ResolveResult :=
  let sqsEndpointURL := getStringOrDefault env "SQS_ENDPOINT_URL" ""
  fun service _region =>
    if sqsEndpointURL ≠ "" ∧ service = sqsServiceID then
      ResolveResult.endpoint sqsEndpointURL
    else
      ResolveResult.endpointNotFoundError

/-- An environment with no variable set. -/
def emptyEnv : Env := fun _ => none

/-- An environment where every variable holds the non-numeric value "abc". -/
def abcEnv : Env := fun _ => some "abc"

/-- Invariant of the supervisor loop relating the collected error list to the
results of the start and stop tasks: the list is empty exactly when neither
task has returned a non-nil error, and each task's non-nil error is in the
list. -/
def Inv (s : SupState) : Prop :=
  (s.errs = [] ↔ startErrOf s = none ∧ stopErrOf s = none)
  ∧ (∀ e, startErrOf s = some e → e ∈ s.errs)
  ∧ (∀ e, stopErrOf s = some e → e ∈ s.errs)

/-! ## Invariant and bookkeeping lemmas -/

theorem inv_initState : Inv initState := by
  refine ⟨by simp [initState, startErrOf, stopErrOf], ?_, ?_⟩ <;>
    intro e he <;> simp [initState, startErrOf, stopErrOf] at he

theorem inv_step {s s' : SupState} {ev : Event}
    (h : step s ev = some s') (hI : Inv s) : Inv s' := by
  obtain ⟨sf, dr, srd, std, errs⟩ := s
  obtain ⟨h1, h2, h3⟩ := hI
  cases ev with
  | signal =>
      simp only [step, Option.some.injEq] at h
      subst h
      exact ⟨h1, h2, h3⟩
  | startRet r =>
      cases srd with
      | some r0 => simp [step] at h
      | none =>
          simp only [step] at h
          rw [if_neg (by simp)] at h
          simp only [Option.some.injEq] at h
          subst h
          rcases r with _ | e0 <;> rcases std with _ | ⟨_ | e1⟩ <;>
            simp_all [Inv, startErrOf, stopErrOf, launchStopIfDone, recordErr]
  | stopRet r =>
      cases std with
      | some r0 => simp [step] at h
      | none =>
          cases dr with
          | false => simp [step] at h
          | true =>
              simp only [step] at h
              rw [if_pos (by simp)] at h
              simp only [Option.some.injEq] at h
              subst h
              rcases r with _ | e0 <;> rcases srd with _ | ⟨_ | e1⟩ <;>
                simp_all [Inv, startErrOf, stopErrOf, recordErr]

theorem inv_procTrace {tr : List Event} :
    ∀ {s s' : SupState}, procTrace s tr = some s' → Inv s → Inv s' := by
  induction tr with
  | nil =>
      intro s s' h hI
      simp only [procTrace, Option.some.injEq] at h
      subst h; exact hI
  | cons e rest ih =>
      intro s s' h hI
      simp only [procTrace] at h
      cases hstep : step s e with
      | none => rw [hstep] at h; exact absurd h (by simp)
      | some s1 =>
          rw [hstep] at h
          exact ih h (inv_step hstep hI)

theorem step_stopRetd_of_not_stopRet {s s' : SupState} {ev : Event}
    (h : step s ev = some s') (hne : ∀ r, ev ≠ Event.stopRet r) :
    s'.stopRetd = s.stopRetd := by
  cases ev with
  | signal =>
      simp only [step, Option.some.injEq] at h
      subst h; rfl
  | startRet r =>
      simp only [step] at h
      split at h
      · exact absurd h (by simp)
      · simp only [Option.some.injEq] at h; subst h; rfl
  | stopRet r => exact absurd rfl (hne r)

theorem step_startRetd_of_not_startRet {s s' : SupState} {ev : Event}
    (h : step s ev = some s') (hne : ∀ r, ev ≠ Event.startRet r) :
    s'.startRetd = s.startRetd := by
  cases ev with
  | signal =>
      simp only [step, Option.some.injEq] at h
      subst h; rfl
  | startRet r => exact absurd rfl (hne r)
  | stopRet r =>
      simp only [step] at h
      split at h
      · simp only [Option.some.injEq] at h; subst h; rfl
      · exact absurd h (by simp)

theorem countStop_procTrace {tr : List Event} :
    ∀ {s s' : SupState}, procTrace s tr = some s' →
      (if s'.stopRetd.isSome then 1 else 0) =
        (if s.stopRetd.isSome then 1 else 0) + countStop tr := by
  induction tr with
  | nil =>
      intro s s' h
      simp only [procTrace, Option.some.injEq] at h
      subst h; simp [countStop]
  | cons e rest ih =>
      intro s s' h
      simp only [procTrace] at h
      cases hstep : step s e with
      | none => rw [hstep] at h; exact absurd h (by simp)
      | some s1 =>
          rw [hstep] at h
          have hrec := ih h
          cases e with
          | signal =>
              rw [step_stopRetd_of_not_stopRet hstep (by intro r hr; cases hr)] at hrec
              simpa [countStop] using hrec
          | startRet r =>
              rw [step_stopRetd_of_not_stopRet hstep (by intro r' hr; cases hr)] at hrec
              simpa [countStop] using hrec
          | stopRet r =>
              obtain ⟨sf, dr, srd, std, errs⟩ := s
              cases std with
              | some r0 => simp [step] at hstep
              | none =>
                  cases dr with
                  | false => simp [step] at hstep
                  | true =>
                      simp only [step] at hstep
                      rw [if_pos (by simp)] at hstep
                      simp only [Option.some.injEq] at hstep
                      subst hstep
                      simp only [Option.isSome_some, if_true] at hrec
                      simp [countStop, hrec]
                      omega

theorem countStart_procTrace {tr : List Event} :
    ∀ {s s' : SupState}, procTrace s tr = some s' →
      (if s'.startRetd.isSome then 1 else 0) =
        (if s.startRetd.isSome then 1 else 0) + countStart tr := by
  induction tr with
  | nil =>
      intro s s' h
      simp only [procTrace, Option.some.injEq] at h
      subst h; simp [countStart]
  | cons e rest ih =>
      intro s s' h
      simp only [procTrace] at h
      cases hstep : step s e with
      | none => rw [hstep] at h; exact absurd h (by simp)
      | some s1 =>
          rw [hstep] at h
          have hrec := ih h
          cases e with
          | signal =>
              rw [step_startRetd_of_not_startRet hstep (by intro r hr; cases hr)] at hrec
              simpa [countStart] using hrec
          | stopRet r =>
              rw [step_startRetd_of_not_startRet hstep (by intro r' hr; cases hr)] at hrec
              simpa [countStart] using hrec
          | startRet r =>
              obtain ⟨sf, dr, srd, std, errs⟩ := s
              cases srd with
              | some r0 => simp [step] at hstep
              | none =>
                  simp only [step] at hstep
                  rw [if_neg (by simp)] at hstep
                  simp only [Option.some.injEq] at hstep
                  subst hstep
                  simp only [launchStopIfDone, Option.isSome_some, if_true] at hrec
                  simp [countStart, hrec]
                  omega

theorem stopsAfterDraining_procTrace {tr : List Event} :
    ∀ {s s' : SupState}, procTrace s tr = some s' →
      stopsAfterDraining s tr = true := by
  induction tr with
  | nil => intro s s' _; rfl
  | cons e rest ih =>
      intro s s' h
      simp only [procTrace] at h
      cases hstep : step s e with
      | none => rw [hstep] at h; exact absurd h (by simp)
      | some s1 =>
          rw [hstep] at h
          have hrest := ih h
          cases e with
          | signal => simp [stopsAfterDraining, hstep, hrest]
          | startRet r => simp [stopsAfterDraining, hstep, hrest]
          | stopRet r =>
              have hdr : s.draining = true := by
                obtain ⟨sf, dr, srd, std, errs⟩ := s
                cases dr with
                | false => simp [step] at hstep
                | true => rfl
              simp [stopsAfterDraining, hstep, hrest, hdr]

theorem exitCodeOf_eq_zero_iff {s : SupState} :
    exitCodeOf s = 0 ↔ s.errs = [] := by
  cases h : s.errs <;> simp [exitCodeOf, waitErrOf, h]

theorem exitCodeOf_eq_one_of_mem {s : SupState} {e : GoErr}
    (h : e ∈ s.errs) : exitCodeOf s = 1 := by
  cases herrs : s.errs with
  | nil => rw [herrs] at h; cases h
  | cons a l => simp [exitCodeOf, waitErrOf, herrs]

theorem runFinal_eq_some {tr : List Event} {s : SupState}
    (h : runFinal tr = some s) :
    procTrace initState tr = some s ∧ completed s = true := by
  unfold runFinal at h
  cases hp : procTrace initState tr with
  | none => simp [hp] at h
  | some s0 =>
      simp only [hp] at h
      by_cases hc : completed s0 = true
      · rw [if_pos hc] at h
        simp only [Option.some.injEq] at h
        subst h
        exact ⟨rfl, hc⟩
      · rw [if_neg hc] at h
        exact absurd h (by simp)

/-! ## Claim theorems -/

/-- C1 (counterexample): the claim says the supervisor enters draining as soon
as `start()` returns, with or without an error.  It does not: when the start
task returns a nil error and no signal has been delivered, the errgroup
context is not canceled, so the main goroutine stays blocked at
`<-ctx.Done()`, draining is not entered, `stop()` is not invoked, and the run
never completes. -/
theorem start_nil_return_leaves_running :
    (procTrace initState [Event.startRet none]).map SupState.draining = some false
    ∧ (procTrace initState [Event.startRet none]).map (fun s => s.stopRetd) = some none
    ∧ runFinal [Event.startRet none] = none := by
  refine ⟨rfl, rfl, rfl⟩

/-- C1 (amended): if the single component's `start()` returns with a non-nil
error before any OS termination request, the supervisor enters draining (the
errgroup context becomes done) and launches `stop()`; if `start()` returns a
nil error, draining is not entered and the supervisor keeps waiting for an
external signal. -/
theorem draining_iff_start_error (r : Option GoErr) :
    (procTrace initState [Event.startRet r]).map SupState.draining = some r.isSome := by
  cases r <;> rfl

/-- C2 (counterexample): with a start-phase error `Ea` followed by a
stop-phase error `Eb`, the outcome is `Failure` (exit 1), but the value
returned by the wait step (`eg.Wait()`) holds only the first error `Ea`;
`Eb` is not present in it, refuting that both errors surface in the
aggregated error set returned by the wait step. -/
theorem wait_returns_only_first_error :
    (runFinal [Event.startRet (some ⟨"Ea"⟩), Event.stopRet (some ⟨"Eb"⟩)]).map
        (fun s => (exitCodeOf s, waitErrSet s)) = some (1, [⟨"Ea"⟩])
    ∧ (⟨"Eb"⟩ : GoErr) ∉ [(⟨"Ea"⟩ : GoErr)] := by
  exact ⟨rfl, by decide⟩

/-- C2 (amended): if the start-phase task returns error `Ea` and the
stop-phase task returns error `Eb` in the same completed run, the final
outcome is `Failure` (exit status 1) and both `Ea` and `Eb` are collected
(each is logged by its task); but `eg.Wait()` returns only the first of the
collected errors, so only one of them appears in the wait step's return
value. -/
theorem both_phase_errors_recorded (tr : List Event) (s : SupState)
    (ea eb : GoErr) (h : runFinal tr = some s)
    (ha : startErrOf s = some ea) (hb : stopErrOf s = some eb) :
    exitCodeOf s = 1 ∧ ea ∈ s.errs ∧ eb ∈ s.errs
      ∧ waitErrSet s = [s.errs.head?.getD ea] := by
  obtain ⟨hp, -⟩ := runFinal_eq_some h
  obtain ⟨-, h2, h3⟩ := inv_procTrace hp inv_initState
  have hmem_a : ea ∈ s.errs := h2 ea ha
  have hmem_b : eb ∈ s.errs := h3 eb hb
  refine ⟨exitCodeOf_eq_one_of_mem hmem_a, hmem_a, hmem_b, ?_⟩
  cases herrs : s.errs with
  | nil => rw [herrs] at hmem_a; cases hmem_a
  | cons x l => simp [waitErrSet, waitErrOf, herrs]

/-- Witness for C2 (amended) at the concrete trace where the start task
returns error "A" and then the stop task returns error "B". -/
theorem both_phase_errors_recorded_witness :
    runFinal [Event.startRet (some ⟨"A"⟩), Event.stopRet (some ⟨"B"⟩)] =
        some ⟨false, true, some (some ⟨"A"⟩), some (some ⟨"B"⟩), [⟨"A"⟩, ⟨"B"⟩]⟩
    ∧ startErrOf ⟨false, true, some (some ⟨"A"⟩), some (some ⟨"B"⟩), [⟨"A"⟩, ⟨"B"⟩]⟩
        = some ⟨"A"⟩
    ∧ stopErrOf ⟨false, true, some (some ⟨"A"⟩), some (some ⟨"B"⟩), [⟨"A"⟩, ⟨"B"⟩]⟩
        = some ⟨"B"⟩
    ∧ (exitCodeOf ⟨false, true, some (some ⟨"A"⟩), some (some ⟨"B"⟩), [⟨"A"⟩, ⟨"B"⟩]⟩ = 1
       ∧ (⟨"A"⟩ : GoErr) ∈ [(⟨"A"⟩ : GoErr), ⟨"B"⟩]
       ∧ (⟨"B"⟩ : GoErr) ∈ [(⟨"A"⟩ : GoErr), ⟨"B"⟩]
       ∧ waitErrSet ⟨false, true, some (some ⟨"A"⟩), some (some ⟨"B"⟩), [⟨"A"⟩, ⟨"B"⟩]⟩
           = [([(⟨"A"⟩ : GoErr), ⟨"B"⟩].head?).getD ⟨"A"⟩]) :=
  ⟨rfl, rfl, rfl,
    both_phase_errors_recorded
      [Event.startRet (some ⟨"A"⟩), Event.stopRet (some ⟨"B"⟩)]
      ⟨false, true, some (some ⟨"A"⟩), some (some ⟨"B"⟩), [⟨"A"⟩, ⟨"B"⟩]⟩
      ⟨"A"⟩ ⟨"B"⟩ rfl rfl rfl⟩

/-- C3: for every run that reaches the component phase and completes, the
process exit status is 0 iff neither the start phase nor the stop phase
produced an error, and non-zero (here: exactly not 0) iff at least one phase
produced an error. -/
theorem exit_zero_iff_no_phase_error (tr : List Event) (s : SupState)
    (h : runFinal tr = some s) :
    startProg true true tr =
        some { exit := exitCodeOf s, componentConstructed := true,
               startCalls := 1, stopCalls := 1 }
    ∧ (exitCodeOf s = 0 ↔ startErrOf s = none ∧ stopErrOf s = none)
    ∧ (exitCodeOf s ≠ 0 ↔ ¬(startErrOf s = none ∧ stopErrOf s = none)) := by
  obtain ⟨hp, -⟩ := runFinal_eq_some h
  obtain ⟨h1, -, -⟩ := inv_procTrace hp inv_initState
  have hiff : exitCodeOf s = 0 ↔ startErrOf s = none ∧ stopErrOf s = none :=
    exitCodeOf_eq_zero_iff.trans h1
  exact ⟨by simp [startProg, h], hiff, not_congr hiff⟩

/-- Witness for C3 at the concrete trace: signal, then start returns nil,
then stop returns nil; the exit status is 0 and no phase errored. -/
theorem exit_zero_iff_no_phase_error_witness :
    runFinal [Event.signal, Event.startRet none, Event.stopRet none] =
        some ⟨true, true, some none, some none, []⟩
    ∧ (startProg true true [Event.signal, Event.startRet none, Event.stopRet none] =
          some { exit := exitCodeOf (⟨true, true, some none, some none, []⟩ : SupState),
                 componentConstructed := true, startCalls := 1, stopCalls := 1 }
       ∧ (exitCodeOf (⟨true, true, some none, some none, []⟩ : SupState) = 0 ↔
            startErrOf ⟨true, true, some none, some none, []⟩ = none
            ∧ stopErrOf ⟨true, true, some none, some none, []⟩ = none)
       ∧ (exitCodeOf (⟨true, true, some none, some none, []⟩ : SupState) ≠ 0 ↔
            ¬(startErrOf ⟨true, true, some none, some none, []⟩ = none
              ∧ stopErrOf ⟨true, true, some none, some none, []⟩ = none))) :=
  ⟨rfl, exit_zero_iff_no_phase_error _ _ rfl⟩

/-- C4: in every completed run of the supervisor, the start task and the stop
task each return exactly once before `run` returns (so `stop()` is invoked
exactly once for the component whose `start()` was invoked), and every return
of the stop task happens in a state where draining has already been
entered. -/
theorem stop_exactly_once_after_draining (tr : List Event) (s : SupState)
    (h : runFinal tr = some s) :
    countStart tr = 1 ∧ countStop tr = 1
      ∧ stopsAfterDraining initState tr = true := by
  obtain ⟨hp, hc⟩ := runFinal_eq_some h
  have hstart := countStart_procTrace hp
  have hstop := countStop_procTrace hp
  simp only [completed, Bool.and_eq_true] at hc
  obtain ⟨⟨-, hsrd⟩, hstd⟩ := hc
  rw [hsrd] at hstart
  rw [hstd] at hstop
  simp [initState] at hstart hstop
  refine ⟨by omega, by omega, stopsAfterDraining_procTrace hp⟩

/-- Witness for C4 at the concrete trace: signal arrives while start is in
flight, stop returns, then start returns. -/
theorem stop_exactly_once_after_draining_witness :
    runFinal [Event.signal, Event.stopRet none, Event.startRet none] =
        some ⟨true, true, some none, some none, []⟩
    ∧ (countStart [Event.signal, Event.stopRet none, Event.startRet none] = 1
       ∧ countStop [Event.signal, Event.stopRet none, Event.startRet none] = 1
       ∧ stopsAfterDraining initState
           [Event.signal, Event.stopRet none, Event.startRet none] = true) :=
  ⟨rfl, stop_exactly_once_after_draining _ _ rfl⟩

/-- C5: if creating the logger fails, or loading the AWS configuration fails,
`start()` returns exit status 1 immediately: the server component is never
constructed and neither `start()` nor `stop()` of the component is ever
launched. -/
theorem early_failure_no_components (loggerOk awsOk : Bool) (tr : List Event)
    (h : loggerOk = false ∨ awsOk = false) :
    startProg loggerOk awsOk tr =
      some { exit := 1, componentConstructed := false,
             startCalls := 0, stopCalls := 0 } := by
  rcases h with h | h
  · subst h; rfl
  · subst h; cases loggerOk <;> rfl

/-- Witness for C5 with a failing AWS configuration load. -/
theorem early_failure_no_components_witness :
    (true = false ∨ false = false)
    ∧ startProg true false [Event.signal] =
        some { exit := 1, componentConstructed := false,
               startCalls := 0, stopCalls := 0 } :=
  ⟨Or.inr rfl, early_failure_no_components true false [Event.signal] (Or.inr rfl)⟩

/-- C6: when a configuration variable is absent from the environment, both
`getStringOrDefault` and `getIntOrDefault` return the given default rather
than failing. -/
theorem defaults_when_env_unset (env : Env) (name : String)
    (dS : String) (dI : Int) (h : env name = none) :
    getStringOrDefault env name dS = dS ∧ getIntOrDefault env name dI = dI := by
  constructor
  · unfold getStringOrDefault; rw [h]
  · unfold getIntOrDefault; rw [h]

/-- Witness for C6: in the empty environment, `HOST` falls back to
`"localhost"` and the same unset name falls back to its integer default. -/
theorem defaults_when_env_unset_witness :
    emptyEnv "HOST" = none
    ∧ (getStringOrDefault emptyEnv "HOST" "localhost" = "localhost"
       ∧ getIntOrDefault emptyEnv "HOST" 8080 = 8080) :=
  ⟨rfl, defaults_when_env_unset emptyEnv "HOST" "localhost" 8080 rfl⟩

/-- C7: success path.  The component's `start()` blocks until `stop()` is
called: a termination signal arrives while start is in flight, the stop task
is launched and returns nil, then the unblocked start task returns nil.  The
completed run has exit status 0 (`Success`). -/
theorem success_path_exit_zero :
    (runFinal [Event.signal, Event.stopRet none, Event.startRet none]).map
        exitCodeOf = some 0
    ∧ startProg true true [Event.signal, Event.stopRet none, Event.startRet none] =
        some { exit := 0, componentConstructed := true,
               startCalls := 1, stopCalls := 1 } := by
  exact ⟨rfl, rfl⟩

/-- C8: when an environment variable is present but its value is not parseable
as an integer (`strconv.Atoi` fails), `getIntOrDefault` returns the default
rather than failing or propagating the parse error. -/
theorem getIntOrDefault_unparseable (env : Env) (name v : String) (d : Int)
    (h1 : env name = some v) (h2 : atoi v = none) :
    getIntOrDefault env name d = d := by
  simp only [getIntOrDefault, h1, h2]

/-- Witness for C8: every variable holds `"abc"`, which `Atoi` rejects, so
`DB_PORT` falls back to 5432. -/
theorem getIntOrDefault_unparseable_witness :
    abcEnv "DB_PORT" = some "abc" ∧ atoi "abc" = none
    ∧ getIntOrDefault abcEnv "DB_PORT" 5432 = 5432 :=
  ⟨rfl, by decide,
    getIntOrDefault_unparseable abcEnv "DB_PORT" "abc" 5432 rfl (by decide)⟩

/-- C9: whatever the fate of the run (early configuration failure or a
completed supervisor run), the exit status `start()` returns is 0 or 1 —
no other value, and no individual error detail is encoded in it. -/
theorem exit_status_zero_or_one (loggerOk awsOk : Bool) (tr : List Event)
    (o : StartOutcome) (h : startProg loggerOk awsOk tr = some o) :
    o.exit = 0 ∨ o.exit = 1 := by
  unfold startProg at h
  cases loggerOk with
  | false => simp at h; rw [← h]; exact Or.inr rfl
  | true =>
      cases awsOk with
      | false => simp at h; rw [← h]; exact Or.inr rfl
      | true =>
          simp only [Bool.not_true, Bool.false_eq_true, if_false] at h
          cases hr : runFinal tr with
          | none => rw [hr] at h; exact absurd h (by simp)
          | some s =>
              rw [hr] at h
              simp only [Option.some.injEq] at h
              subst h
              unfold exitCodeOf
              by_cases hw : (waitErrOf s).isSome = true
              · rw [if_pos hw]; exact Or.inr rfl
              · rw [if_neg hw]; exact Or.inl rfl

/-- Witness for C9 at a concrete completed run. -/
theorem exit_status_zero_or_one_witness :
    startProg true true [Event.signal, Event.startRet none, Event.stopRet none] =
        some { exit := 0, componentConstructed := true,
               startCalls := 1, stopCalls := 1 }
    ∧ (StartOutcome.exit { exit := 0, componentConstructed := true,
                           startCalls := 1, stopCalls := 1 } = 0
       ∨ StartOutcome.exit { exit := 0, componentConstructed := true,
                             startCalls := 1, stopCalls := 1 } = 1) :=
  ⟨rfl, exit_status_zero_or_one true true
    [Event.signal, Event.startRet none, Event.stopRet none]
    { exit := 0, componentConstructed := true, startCalls := 1, stopCalls := 1 } rfl⟩

/-- C10: the endpoint resolver returns the custom endpoint (whose URL is the
`SQS_ENDPOINT_URL` environment value, defaulting to the empty string) exactly
when that value is non-empty and the requested service is SQS; in every other
case it returns `EndpointNotFoundError`, letting resolution fall back to the
default endpoint. -/
theorem endpointResolver_spec (env : Env) (service region : String) :
    (createAWSEndpointResolver env service region =
        ResolveResult.endpoint (getStringOrDefault env "SQS_ENDPOINT_URL" "")
      ∧ getStringOrDefault env "SQS_ENDPOINT_URL" "" ≠ "" ∧ service = sqsServiceID)
    ∨ (createAWSEndpointResolver env service region =
        ResolveResult.endpointNotFoundError
      ∧ ¬(getStringOrDefault env "SQS_ENDPOINT_URL" "" ≠ ""
          ∧ service = sqsServiceID)) := by
  by_cases h : getStringOrDefault env "SQS_ENDPOINT_URL" "" ≠ "" ∧ service = sqsServiceID
  · left
    refine ⟨?_, h⟩
    unfold createAWSEndpointResolver
    rw [if_pos h]
  · right
    refine ⟨?_, h⟩
    unfold createAWSEndpointResolver
    rw [if_neg h]

end Canvas
